import Mathlib

/-!
Verification development for the obstacle-avoidance MPC controller
(`neural_clbf/controllers/obs_mpc_controller.py`) and the Quad2D obstacle
data module (`neural_clbf/experiments/quad2d_obstacles/data_generation.py`).

The Python code is shallowly embedded over `ℚ`.  Machine floats are modelled
as exact rationals; trigonometric values (`np.cos`, `np.sin`) are supplied by
a collaborator function, since the code consumes them as opaque numbers.
Euclidean-norm comparisons (`x.norm(dim=-1) <= 4.5`, `>= 5.0`) are embedded
by comparing the squared norm against the squared bound, which is equivalent
because both sides are nonnegative.
-/

namespace NeuralClbf

/-! ## Data generation (`data_generation.py`)

A sampled state row is a `List ℚ` (the Quad2D default has six dimensions:
x, z, theta, vx, vz, roll).  `x[:, 0]` and `x[:, 1]` are the first two
entries; the norm runs over the whole row. -/

/-- Squared Euclidean norm of a state row, embedding `x.norm(dim=-1)`
compared against squared bounds. -/
def sumSq (x : List ℚ) : ℚ := (x.map (fun a => a ^ 2)).sum

/-- Embedding of `safe_mask_fn`: floor bound, two safe-exclusion obstacle
boxes, and a norm bound, all conjoined with non-strict comparisons exactly
as in the source (`>=`, `<=`). -/
def safeMask (x : List ℚ) : Prop :=
  (-1/10 ≤ x.getD 1 0) ∧
  (x.getD 0 0 ≤ -11/10 ∨ -2/5 ≤ x.getD 0 0 ∨ x.getD 1 0 ≤ -1/2 ∨ 3/5 ≤ x.getD 1 0) ∧
  (x.getD 0 0 ≤ -1/10 ∨ 11/10 ≤ x.getD 0 0 ∨ x.getD 1 0 ≤ 7/10 ∨ 3/2 ≤ x.getD 1 0) ∧
  sumSq x ≤ (9/2) ^ 2

/-- Embedding of `unsafe_mask_fn`: floor bound, two (tighter) obstacle
boxes, and a norm bound, all disjoined with non-strict comparisons exactly
as in the source. -/
def unsafeMask (x : List ℚ) : Prop :=
  (x.getD 1 0 ≤ -3/10) ∨
  ((-1 ≤ x.getD 0 0 ∧ x.getD 0 0 ≤ -1/2) ∧ (-2/5 ≤ x.getD 1 0 ∧ x.getD 1 0 ≤ 1/2)) ∨
  ((0 ≤ x.getD 0 0 ∧ x.getD 0 0 ≤ 1) ∧ (4/5 ≤ x.getD 1 0 ∧ x.getD 1 0 ≤ 7/5)) ∨
  (5 ^ 2 ≤ sumSq x)

instance (x : List ℚ) : Decidable (safeMask x) := by
  unfold safeMask; infer_instance

instance (x : List ℚ) : Decidable (unsafeMask x) := by
  unfold unsafeMask; infer_instance

/-- One sampled point from one domain: dimension `i` is drawn in `[0, 1]`
(the raw draw is the collaborator value `r i`) and then scaled and shifted,
`x_sample[:, i] * (max_val - min_val) + min_val`. -/
def samplePoint (dom : List (ℚ × ℚ)) (r : ℕ → ℚ) : List ℚ :=
  dom.mapIdx (fun i p => r i * (p.2 - p.1) + p.1)

/-- The `N_samples` points drawn from one domain, in draw order. -/
def domainSamples (dom : List (ℚ × ℚ)) (Ns : ℕ) (r : ℕ → ℕ → ℚ) : List (List ℚ) :=
  (List.range Ns).map (fun j => samplePoint dom (r j))

/-- Embedding of `prepare_data`: per-domain sample blocks concatenated in
domain order (`torch.vstack`).  The randomness source `rng d j i` gives the
raw uniform draw for domain `d`, sample `j`, dimension `i`. -/
def prepareData (domains : List (List (ℚ × ℚ))) (Ns : ℕ)
    (rng : ℕ → ℕ → ℕ → ℚ) : List (List ℚ) :=
  ((List.range domains.length).map
    (fun d => domainSamples (domains.getD d []) Ns (rng d))).flatten

/-- `split_pt = int(self.N * self.split)`; for a nonnegative product the
Python `int` conversion is the floor. -/
def splitPt (total : ℕ) (s : ℚ) : ℕ := (⌊(total : ℚ) * s⌋).toNat

/-- Embedding of `setup`: `self.validation_data = self.dataset[:split_pt]`. -/
def validationData (domains : List (List (ℚ × ℚ))) (Ns : ℕ)
    (rng : ℕ → ℕ → ℕ → ℚ) (s : ℚ) : List (List ℚ) :=
  (prepareData domains Ns rng).take (splitPt (domains.length * Ns) s)

/-- Embedding of `setup`: `self.train_data = self.dataset[split_pt:]`. -/
def trainData (domains : List (List (ℚ × ℚ))) (Ns : ℕ)
    (rng : ℕ → ℕ → ℕ → ℚ) (s : ℚ) : List (List ℚ) :=
  (prepareData domains Ns rng).drop (splitPt (domains.length * Ns) s)

/-! ## MPC controller (`obs_mpc_controller.py`)

The controller state `x[i, :]` is a planar position `(px, pz)`, a heading
`theta` (`x[i, 2]`), and whatever further components the dynamics model
carries (`rest`).  Observations are lists of 2D points in the body frame.
The cvxpy matrix variable `P` is declared `symmetric=True`, so it is
embedded as the three entries of a symmetric 2x2 matrix. -/

/-- A 2D point (a column of the observation matrix, or `x_target`). -/
structure Vec2 where
  x : ℚ
  y : ℚ
deriving DecidableEq

/-- A symmetric 2x2 matrix `[[a, b], [b, c]]`, as declared by
`cp.Variable((2, 2), symmetric=True)`. -/
structure Sym2 where
  a : ℚ
  b : ℚ
  c : ℚ
deriving DecidableEq

/-- The quadratic form `v^T P v` (`cp.quad_form`). -/
def quadForm (v : Vec2) (P : Sym2) : ℚ :=
  P.a * v.x ^ 2 + 2 * P.b * v.x * v.y + P.c * v.y ^ 2

/-- Positive semi-definiteness of the symmetric matrix (`P >> 0`). -/
def Sym2.PSD (P : Sym2) : Prop := ∀ v : Vec2, 0 ≤ quadForm v P

/-- Application of the rotation matrix
`[[cos theta, -sin theta], [sin theta, cos theta]]` to a 2D point, with the
cosine and sine values `cth`, `sth` supplied as data (the source obtains
them from `np.cos` / `np.sin`). -/
def rotApply (cth sth : ℚ) (v : Vec2) : Vec2 :=
  ⟨cth * v.x - sth * v.y, sth * v.x + cth * v.y⟩

/-- One cvxpy constraint as the source constructs them: the PSD constraint
on the variable `P`, a margin constraint `quad_form(o_i, P) >= 1.25` for an
observed point, or the containment constraint
`quad_form(x_target, P_opt) <= 0.75` with fixed numeric data `Q = P_opt`. -/
inductive Constr where
  | psdC : Constr
  | marginC (o : Vec2) : Constr
  | containC (Q : Sym2) : Constr
deriving DecidableEq

/-- Satisfaction of one constraint by an assignment to the two cvxpy
variables: the matrix variable `P` and the point variable `x_target = t`.
`psdC` and `marginC` constrain only `P`; `containC` constrains only `t`. -/
def Constr.holds : Constr → Sym2 → Vec2 → Prop
  | Constr.psdC, P, _ => P.PSD
  | Constr.marginC o, P, _ => 5/4 ≤ quadForm o P
  | Constr.containC Q, _, t => quadForm t Q ≤ 3/4

/-- The Stage 1 constraint list exactly as the source builds it:
`constraints = [P >> 0]` followed by one margin constraint per observed
point, in point order. -/
def stage1Constraints (obs : List Vec2) : List Constr :=
  Constr.psdC :: obs.map Constr.marginC

/-- The constraint list of the Stage 2 problem exactly as the source builds
it: the same Python list as Stage 1, with
`constraints.append(cp.quad_form(x_target, P_opt) <= 0.75)` appended. -/
def stage2Constraints (obs : List Vec2) (Popt : Sym2) : List Constr :=
  stage1Constraints obs ++ [Constr.containC Popt]

/-- The Stage 2 objective as the source builds it:
`cp.sum_squares(batch_x + rotation_mat @ x_target)`. -/
def stage2Objective (bx : Vec2) (cth sth : ℚ) (t : Vec2) : ℚ :=
  (bx.x + (rotApply cth sth t).x) ^ 2 + (bx.y + (rotApply cth sth t).y) ^ 2

/-- Squared Euclidean norm of a 2D point. -/
def normSq2 (v : Vec2) : ℚ := v.x ^ 2 + v.y ^ 2

/-- The Stage 2 objective as the spec words it: the squared norm of
`position_local + R(theta) . x_target` (for the refinement comparison with
`stage2Objective`). -/
def stage2ObjectiveSpec (bx : Vec2) (cth sth : ℚ) (t : Vec2) : ℚ :=
  normSq2 ⟨bx.x + (rotApply cth sth t).x, bx.y + (rotApply cth sth t).y⟩

/-- A controller state row: position `(px, pz)`, heading `theta`
(`x[i, 2]`), and the remaining components `rest` (velocity/attitude-rate
states in the Quad2D interpretation). -/
structure CState where
  px : ℚ
  pz : ℚ
  theta : ℚ
  rest : List ℚ
deriving DecidableEq

/-- The state vector the source passes to `u_nominal`:
`torch.cat((torch.tensor(-x_target_opt), x[batch_idx, 2].unsqueeze(-1)))`,
i.e. the negated global-frame target followed by the heading — three
components in total. -/
def shiftedState (g : Vec2) (theta : ℚ) : List ℚ := [-g.x, -g.y, theta]

/-- The state vector the claim says is passed to `u_nominal`: the input
state with its two position components replaced by the negated global-frame
target and all remaining components passed through (stated from the spec's
words, for the refinement comparison with `shiftedState`). -/
def claimedShifted (g : Vec2) (s : CState) : List ℚ :=
  [-g.x, -g.y, s.theta] ++ s.rest

/-- Modelled from the spec: the dynamics-model collaborator interface of
section 6 (its implementation is not under `src/`).  `getObs` maps a state
to its local-frame point cloud; `uNominal` is the baseline stabilizing
controller returning a length-`m` command row; `controlLimits` is
`control_limits() -> (lower_bound_vector, upper_bound_vector)`; `cosF` and
`sinF` supply the `np.cos` / `np.sin` values of a heading. -/
structure Env (m : ℕ) where
  getObs : CState → List Vec2
  uNominal : List ℚ → (Fin m → ℚ)
  controlLimits : (Fin m → ℚ) × (Fin m → ℚ)
  cosF : ℚ → ℚ
  sinF : ℚ → ℚ

/-- Modelled from the spec: the convex solver (cvxpy, not under `src/`).
`solve1` maps the Stage 1 problem data (the observed points) to an optimal
`P`, or `none` for any non-`optimal` status; `solve2` maps the Stage 2
problem data (observed points, the fixed `P_opt`, the position `batch_x`,
and the heading's cosine and sine) to an optimal assignment of the two
variables still present in the problem — the matrix variable `P` and
`x_target` — or `none`.  Per the spec's glossary, an `optimal` status
certifies that the returned assignment satisfies every constraint of the
problem; these certificates are the two `Prop` fields. -/
structure Solver where
  solve1 : List Vec2 → Option Sym2
  solve2 : List Vec2 → Sym2 → Vec2 → ℚ → ℚ → Option (Sym2 × Vec2)
  solve1_opt : ∀ obs P, solve1 obs = some P →
    ∀ c ∈ stage1Constraints obs, c.holds P ⟨0, 0⟩
  solve2_opt : ∀ obs Q bx cth sth P t, solve2 obs Q bx cth sth = some (P, t) →
    ∀ c ∈ stage2Constraints obs Q, c.holds P t

/-- `torch.clamp(x, lo, hi)`: when `lo > hi` every element is set to `hi`,
which the single expression `min (max x lo) hi` captures. -/
def torchClamp (x lo hi : ℚ) : ℚ := min (max x lo) hi

/-- The command row before post-processing, for one batch element: zero if
either solve is skipped (`prob.status != "optimal"` followed by
`continue`), else the nominal command at the shifted state built from the
global-frame target `rotation_mat @ x_target_opt`. -/
def elementRaw {m : ℕ} (E : Env m) (S : Solver) (s : CState) : Fin m → ℚ :=
  match S.solve1 (E.getObs s) with
  | none => fun _ => 0
  | some Popt =>
    match S.solve2 (E.getObs s) Popt ⟨s.px, s.pz⟩ (E.cosF s.theta) (E.sinF s.theta) with
    | none => fun _ => 0
    | some (_, xt) =>
      E.uNominal (shiftedState (rotApply (E.cosF s.theta) (E.sinF s.theta) xt) s.theta)

/-- `u[:, 0] *= 2.0`: scale column 0 of a command row by the fixed gain. -/
def scaleU {m : ℕ} (v : Fin m → ℚ) : Fin m → ℚ :=
  fun j => if j.val = 0 then 2 * v j else v j

/-- The actuator clamp exactly as the source applies it:
`u_upper, u_lower = self.dynamics_model.control_limits` (so `u_upper` is
bound to the first returned vector and `u_lower` to the second), then
`u = torch.clamp(u, u_lower, u_upper)`. -/
def clampU {m : ℕ} (E : Env m) (v : Fin m → ℚ) : Fin m → ℚ :=
  fun j => torchClamp (v j) (E.controlLimits.2 j) (E.controlLimits.1 j)

/-- Embedding of `ObsMPCController.u`: the per-element loop over the batch
(writing disjoint rows of the zero-initialized `u`), followed by the
column-0 scaling and the actuator clamp applied to every row.  The method
is total: a skipped solve leaves the zero row, it never raises. -/
def controllerU {m : ℕ} (E : Env m) (S : Solver) (xs : List CState) :
    List (Fin m → ℚ) :=
  (xs.map (elementRaw E S)).map (fun v => clampU E (scaleU v))

/-! ## Theorems -/

/-- Helper: each domain contributes exactly `Ns` rows, so the concatenated
dataset has `len(domains) * Ns` rows. -/
theorem prepareData_length (domains : List (List (ℚ × ℚ))) (Ns : ℕ)
    (rng : ℕ → ℕ → ℕ → ℚ) :
    (prepareData domains Ns rng).length = domains.length * Ns := by
  unfold prepareData
  rw [List.length_flatten, List.map_map]
  have h : ∀ d : ℕ,
      (List.length ∘ fun d => domainSamples (domains.getD d []) Ns (rng d)) d = Ns := by
    intro d
    simp [domainSamples]
  rw [List.map_congr_left (fun d _ => h d), List.map_const', List.sum_replicate,
    List.length_range, smul_eq_mul]

/-- C7: a state row can never satisfy both the safe predicate and the
unsafe predicate: every disjunct of `unsafe_mask_fn` contradicts the
corresponding conjunct of `safe_mask_fn`. -/
theorem safe_unsafe_disjoint (x : List ℚ) (hsafe : safeMask x) :
    ¬ unsafeMask x := by
  obtain ⟨hf, hb1, hb2, hn⟩ := hsafe
  intro hu
  rcases hu with h | ⟨⟨h1, h2⟩, h3, h4⟩ | ⟨⟨h1, h2⟩, h3, h4⟩ | h
  · linarith
  · rcases hb1 with h5 | h5 | h5 | h5 <;> linarith
  · rcases hb2 with h5 | h5 | h5 | h5 <;> linarith
  · linarith

/-- Witness for C7 at the origin of the six-dimensional state space. -/
theorem safe_unsafe_disjoint_wit :
    safeMask [0, 0, 0, 0, 0, 0] ∧ ¬ unsafeMask [0, 0, 0, 0, 0, 0] :=
  ⟨by norm_num [safeMask, sumSq],
   safe_unsafe_disjoint [0, 0, 0, 0, 0, 0] (by norm_num [safeMask, sumSq])⟩

/-- C10: every comparison in the two predicates is non-strict, so boundary
points classify as stated: points exactly on the border of a safe-exclusion
box (`px = -0.4`; `pz = 0.6`), at height exactly `-0.1`, or at norm exactly
`4.5` are safe, while points exactly on the border of an unsafe box
(`px = -1.0`), at height exactly `-0.3`, or at norm exactly `5.0` are
unsafe. -/
theorem boundary_classification :
    safeMask [-2/5, 0, 0, 0, 0, 0] ∧
    safeMask [-7/10, 3/5, 0, 0, 0, 0] ∧
    safeMask [0, -1/10, 0, 0, 0, 0] ∧
    safeMask [9/2, 0, 0, 0, 0, 0] ∧
    unsafeMask [-1, 0, 0, 0, 0, 0] ∧
    unsafeMask [0, -3/10, 0, 0, 0, 0] ∧
    unsafeMask [3, 4, 0, 0, 0, 0] := by
  norm_num [safeMask, unsafeMask, sumSq]

/-- C8: for split fraction `s` in `[0, 1]`, the dataset holds
`len(domains) * N_samples` rows, the validation partition is the first
`floor(s * total)` rows of the unshuffled concatenated sequence, its length
is `floor(s * total)`, and training plus validation lengths recover the
total. -/
theorem split_sizes (domains : List (List (ℚ × ℚ))) (Ns : ℕ)
    (rng : ℕ → ℕ → ℕ → ℚ) (s : ℚ) (h0 : 0 ≤ s) (h1 : s ≤ 1) :
    (prepareData domains Ns rng).length = domains.length * Ns ∧
    validationData domains Ns rng s =
      (prepareData domains Ns rng).take ((⌊s * ((domains.length * Ns : ℕ) : ℚ)⌋).toNat) ∧
    (validationData domains Ns rng s).length =
      (⌊s * ((domains.length * Ns : ℕ) : ℚ)⌋).toNat ∧
    (trainData domains Ns rng s).length + (validationData domains Ns rng s).length =
      domains.length * Ns := by
  have hlen := prepareData_length domains Ns rng
  have hcomm : splitPt (domains.length * Ns) s =
      (⌊s * ((domains.length * Ns : ℕ) : ℚ)⌋).toNat := by
    unfold splitPt
    rw [mul_comm]
  have hk : splitPt (domains.length * Ns) s ≤ domains.length * Ns := by
    unfold splitPt
    rw [Int.toNat_le]
    calc ⌊((domains.length * Ns : ℕ) : ℚ) * s⌋
        ≤ ⌊(((domains.length * Ns : ℕ) : ℚ))⌋ := by
          apply Int.floor_le_floor
          calc ((domains.length * Ns : ℕ) : ℚ) * s
              ≤ ((domains.length * Ns : ℕ) : ℚ) * 1 := by
                exact mul_le_mul_of_nonneg_left h1 (Nat.cast_nonneg _)
            _ = ((domains.length * Ns : ℕ) : ℚ) := mul_one _
      _ = ((domains.length * Ns : ℕ) : ℤ) := Int.floor_natCast _
  refine ⟨hlen, ?_, ?_, ?_⟩
  · unfold validationData
    rw [hcomm]
  · unfold validationData
    rw [hcomm, List.length_take, hlen, ← hcomm, Nat.min_eq_left hk, hcomm]
  · unfold trainData validationData
    rw [List.length_drop, List.length_take, hlen, Nat.min_eq_left hk,
      Nat.sub_add_cancel hk]

/-- Concrete sampler configuration used by the C8 witness. -/
def dom₀ : List (List (ℚ × ℚ)) := [[(0, 1), (0, 1)]]

/-- Concrete randomness source used by the C8 witness. -/
def rng₀ : ℕ → ℕ → ℕ → ℚ := fun _ _ _ => 1/2

/-- Witness for C8 with one two-dimensional domain, two samples, and split
fraction one half. -/
theorem split_sizes_wit :
    (prepareData dom₀ 2 rng₀).length = dom₀.length * 2 ∧
    validationData dom₀ 2 rng₀ (1/2) =
      (prepareData dom₀ 2 rng₀).take ((⌊(1/2 : ℚ) * ((dom₀.length * 2 : ℕ) : ℚ)⌋).toNat) ∧
    (validationData dom₀ 2 rng₀ (1/2)).length =
      (⌊(1/2 : ℚ) * ((dom₀.length * 2 : ℕ) : ℚ)⌋).toNat ∧
    (trainData dom₀ 2 rng₀ (1/2)).length + (validationData dom₀ 2 rng₀ (1/2)).length =
      dom₀.length * 2 :=
  split_sizes dom₀ 2 rng₀ (1/2) (by norm_num) (by norm_num)

/-- C4: whenever the Stage 1 solve reports optimal, the returned matrix
satisfies every point-margin constraint (`o^T P o >= 1.25` for each
observed point) and is positive semi-definite. -/
theorem stage1_feasibility (S : Solver) (obs : List Vec2) (P : Sym2)
    (h : S.solve1 obs = some P) :
    (∀ o ∈ obs, 5/4 ≤ quadForm o P) ∧ P.PSD := by
  have hc := S.solve1_opt obs P h
  constructor
  · intro o ho
    exact hc (Constr.marginC o)
      (List.mem_cons_of_mem _ (List.mem_map_of_mem _ ho))
  · exact hc Constr.psdC (List.mem_cons_self _ _)

/-- C6: whenever the Stage 2 solve reports optimal, the selected target
point satisfies the containment constraint `t^T P_opt t <= 0.75`. -/
theorem stage2_containment (S : Solver) (obs : List Vec2) (Q : Sym2)
    (bx : Vec2) (cth sth : ℚ) (P : Sym2) (t : Vec2)
    (h : S.solve2 obs Q bx cth sth = some (P, t)) :
    quadForm t Q ≤ 3/4 := by
  have hc := S.solve2_opt obs Q bx cth sth P t h
  exact hc (Constr.containC Q)
    (List.mem_append_right _ (List.mem_singleton_self _))

/-- Counterexample to C5: even with an empty observation set, the Stage 2
constraint list is not the single containment constraint — the source
appends to the Stage 1 list, so the PSD constraint (and one margin
constraint per point) remains. -/
theorem stage2_not_single_constraint :
    stage2Constraints [] ⟨1, 0, 1⟩ ≠ [Constr.containC ⟨1, 0, 1⟩] := by
  decide

/-- C5 as amended: the Stage 2 problem minimizes the squared norm of
`position_local + R(theta) . x_target`, and its constraint list is the
whole Stage 1 list (PSD and point margins, on the still-free variable `P`)
with the containment constraint on the fixed `P_opt` appended; an
assignment is feasible exactly when `P` satisfies the Stage 1 constraints
and `x_target` the containment constraint. -/
theorem stage2_problem_amended (obs : List Vec2) (Q P : Sym2) (t : Vec2)
    (bx : Vec2) (cth sth : ℚ) :
    stage2Constraints obs Q = stage1Constraints obs ++ [Constr.containC Q] ∧
    ((∀ c ∈ stage2Constraints obs Q, c.holds P t) ↔
      ((∀ c ∈ stage1Constraints obs, c.holds P t) ∧ quadForm t Q ≤ 3/4)) ∧
    stage2Objective bx cth sth t = stage2ObjectiveSpec bx cth sth t := by
  refine ⟨rfl, ?_, rfl⟩
  unfold stage2Constraints
  constructor
  · intro h
    exact ⟨fun c hc => h c (List.mem_append_left _ hc),
      h (Constr.containC Q) (List.mem_append_right _ (List.mem_singleton_self _))⟩
  · rintro ⟨h1, h2⟩ c hc
    rcases List.mem_append.mp hc with hc | hc
    · exact h1 c hc
    · rw [List.mem_singleton.mp hc]
      exact h2

/-- Counterexample to C3: for a state with one component beyond the heading
(here a velocity component equal to 1), the vector the source passes to
`u_nominal` (three entries) differs from the vector the claim describes
(position replaced, heading kept, and the remaining components passed
through). -/
theorem shifted_state_cex :
    shiftedState (rotApply 1 0 ⟨0, 0⟩) (0 : ℚ) ≠
      claimedShifted (rotApply 1 0 ⟨0, 0⟩) ⟨0, 0, 0, [1]⟩ := by
  simp [shiftedState, claimedShifted]

/-- C3 as amended: when both solves report optimal, the vector passed to
`u_nominal` consists of exactly three components — the two position slots
replaced by the negated global-frame target `-(R(theta) . x_target)` and
the unchanged heading; any remaining components of the input state are
dropped, not passed through. -/
theorem shifted_state_amended {m : ℕ} (E : Env m) (S : Solver) (s : CState)
    (P Q : Sym2) (t : Vec2)
    (h1 : S.solve1 (E.getObs s) = some P)
    (h2 : S.solve2 (E.getObs s) P ⟨s.px, s.pz⟩ (E.cosF s.theta) (E.sinF s.theta) =
      some (Q, t)) :
    elementRaw E S s =
      E.uNominal (shiftedState (rotApply (E.cosF s.theta) (E.sinF s.theta) t) s.theta) ∧
    shiftedState (rotApply (E.cosF s.theta) (E.sinF s.theta) t) s.theta =
      [-(E.cosF s.theta * t.x - E.sinF s.theta * t.y),
       -(E.sinF s.theta * t.x + E.cosF s.theta * t.y), s.theta] := by
  refine ⟨?_, rfl⟩
  unfold elementRaw
  rw [h1]
  dsimp only
  rw [h2]

/-- C1: every command row the controller returns lies componentwise within
the actuator bounds, with `control_limits` read as the spec's
`(lower_bound_vector, upper_bound_vector)` pair, whatever the solver
outcomes were. -/
theorem actuator_bounds {m : ℕ} (E : Env m) (S : Solver) (xs : List CState)
    (hlim : ∀ j, E.controlLimits.1 j ≤ E.controlLimits.2 j)
    (i : ℕ) (v : Fin m → ℚ) (hv : (controllerU E S xs).get? i = some v)
    (j : Fin m) :
    E.controlLimits.1 j ≤ v j ∧ v j ≤ E.controlLimits.2 j := by
  unfold controllerU at hv
  rw [List.get?_map, List.get?_map] at hv
  rcases hxs : xs.get? i with _ | s
  · rw [hxs] at hv
    simp at hv
  · rw [hxs] at hv
    simp only [Option.map_some'] at hv
    obtain rfl := Option.some.inj hv
    constructor
    · exact le_min (le_trans (hlim j) (le_max_right _ _)) (le_refl _)
    · exact le_trans (min_le_right _ _) (hlim j)

/-- C2: if Stage 1 or Stage 2 reports non-optimal for element `i`, the
controller (a total function — no exception reaches the caller) returns for
element `i` exactly the zero row with the column-0 gain and the actuator
clamp applied. -/
theorem skip_zero_command {m : ℕ} (E : Env m) (S : Solver) (xs : List CState)
    (i : ℕ) (s : CState) (hs : xs.get? i = some s)
    (hskip : S.solve1 (E.getObs s) = none ∨
      ∃ P, S.solve1 (E.getObs s) = some P ∧
        S.solve2 (E.getObs s) P ⟨s.px, s.pz⟩ (E.cosF s.theta) (E.sinF s.theta) = none) :
    (controllerU E S xs).get? i = some (clampU E (scaleU (fun _ => 0))) := by
  have hz : elementRaw E S s = fun _ => 0 := by
    unfold elementRaw
    rcases hskip with h | ⟨P, hP, h2⟩
    · rw [h]
    · rw [hP]
      dsimp only
      rw [h2]
  unfold controllerU
  rw [List.get?_map, List.get?_map, hs]
  simp [hz]

/-- C9: the controller has no cross-element interaction: two batches that
agree at index `i` produce the same command at index `i`, whatever the
other elements are. -/
theorem batch_noninterference {m : ℕ} (E : Env m) (S : Solver)
    (xs ys : List CState) (i : ℕ) (h : xs.get? i = ys.get? i) :
    (controllerU E S xs).get? i = (controllerU E S ys).get? i := by
  unfold controllerU
  rw [List.get?_map, List.get?_map, List.get?_map, List.get?_map, h]

/-! ## Concrete instances for the witnesses -/

/-- One observed obstacle point, one unit ahead on the body x-axis. -/
def obs₁ : List Vec2 := [⟨1, 0⟩]

/-- A concrete feasible ellipsoid matrix, `2 I`. -/
def P₁ : Sym2 := ⟨2, 0, 2⟩

/-- The concrete matrix `P₁` is positive semi-definite. -/
theorem P₁_PSD : P₁.PSD := by
  intro v
  have hx := sq_nonneg v.x
  have hy := sq_nonneg v.y
  simp only [quadForm, P₁]
  nlinarith

/-- A solver that reports non-optimal on every problem (both certificate
obligations hold vacuously). -/
def S₀ : Solver where
  solve1 := fun _ => none
  solve2 := fun _ _ _ _ _ => none
  solve1_opt := by intro obs P h; cases h
  solve2_opt := by intro obs Q bx cth sth P t h; cases h

/-- A solver that reports optimal exactly on the problem built from `obs₁`,
returning `P₁` for Stage 1 and the assignment `(P₁, (0, 0))` for Stage 2. -/
def S₁ : Solver where
  solve1 := fun obs => if obs = obs₁ then some P₁ else none
  solve2 := fun obs Q _ _ _ =>
    if obs = obs₁ ∧ Q = P₁ then some (P₁, ⟨0, 0⟩) else none
  solve1_opt := by
    intro obs P h
    dsimp only at h
    by_cases hc : obs = obs₁
    · rw [if_pos hc] at h
      obtain rfl := Option.some.inj h
      subst hc
      intro c hcm
      simp only [stage1Constraints, obs₁, List.map_cons, List.map_nil,
        List.mem_cons, List.not_mem_nil, or_false] at hcm
      rcases hcm with rfl | rfl
      · exact P₁_PSD
      · show (5 : ℚ)/4 ≤ quadForm ⟨1, 0⟩ P₁
        norm_num [quadForm, P₁]
    · rw [if_neg hc] at h
      cases h
  solve2_opt := by
    intro obs Q bx cth sth P t h
    dsimp only at h
    by_cases hc : obs = obs₁ ∧ Q = P₁
    · rw [if_pos hc] at h
      obtain ⟨rfl, rfl⟩ := Prod.mk.inj (Option.some.inj h)
      obtain ⟨rfl, rfl⟩ := hc
      intro c hcm
      simp only [stage2Constraints, stage1Constraints, obs₁, List.map_cons,
        List.map_nil, List.cons_append, List.nil_append, List.mem_cons,
        List.not_mem_nil, or_false] at hcm
      rcases hcm with rfl | rfl | rfl
      · exact P₁_PSD
      · show (5 : ℚ)/4 ≤ quadForm ⟨1, 0⟩ P₁
        norm_num [quadForm, P₁]
      · show quadForm ⟨0, 0⟩ P₁ ≤ (3 : ℚ)/4
        norm_num [quadForm, P₁]
    · rw [if_neg hc] at h
      cases h

/-- A concrete collaborator environment with one control dimension,
actuator bounds `[-1, 1]`, and trigonometric values at heading zero. -/
def E₀ : Env 1 where
  getObs := fun _ => obs₁
  uNominal := fun l _ => (l.length : ℚ)
  controlLimits := (fun _ => -1, fun _ => 1)
  cosF := fun _ => 1
  sinF := fun _ => 0

/-- A concrete state at the origin with heading zero and no further
components. -/
def s₀ : CState := ⟨0, 0, 0, []⟩

/-- A concrete state with one component beyond the heading. -/
def s₁ : CState := ⟨0, 0, 0, [1]⟩

/-- A second concrete state, used to vary the other batch element in the
C9 witness. -/
def s₂ : CState := ⟨1, 2, 3, []⟩

/-- The concrete command row produced for `s₀` under `E₀` and the
all-skipping solver. -/
def v₀ : Fin 1 → ℚ := clampU E₀ (scaleU (elementRaw E₀ S₀ s₀))

/-- Witness for C1 on a singleton batch under the all-skipping solver. -/
theorem actuator_bounds_wit :
    E₀.controlLimits.1 0 ≤ v₀ 0 ∧ v₀ 0 ≤ E₀.controlLimits.2 0 :=
  actuator_bounds E₀ S₀ [s₀] (fun _ => by norm_num [E₀]) 0 v₀ rfl 0

/-- Witness for C2: the all-skipping solver leaves element 0 at the
post-processed zero row. -/
theorem skip_zero_command_wit :
    (controllerU E₀ S₀ [s₀]).get? 0 = some (clampU E₀ (scaleU (fun _ => 0))) :=
  skip_zero_command E₀ S₀ [s₀] 0 s₀ rfl (Or.inl rfl)

/-- Witness for C9 on two concrete batches that agree at index 0 and differ
at index 1. -/
theorem batch_noninterference_wit :
    (controllerU E₀ S₁ [s₀, s₀]).get? 0 = (controllerU E₀ S₁ [s₀, s₂]).get? 0 :=
  batch_noninterference E₀ S₁ [s₀, s₀] [s₀, s₂] 0 rfl

/-- Witness for C4 at the concrete Stage 1 solve of `S₁` on `obs₁`. -/
theorem stage1_feasibility_wit :
    (∀ o ∈ obs₁, 5/4 ≤ quadForm o P₁) ∧ P₁.PSD :=
  stage1_feasibility S₁ obs₁ P₁ (by simp [S₁])

/-- Witness for C6 at the concrete Stage 2 solve of `S₁`. -/
theorem stage2_containment_wit : quadForm ⟨0, 0⟩ P₁ ≤ 3/4 :=
  stage2_containment S₁ obs₁ P₁ ⟨0, 0⟩ 1 0 P₁ ⟨0, 0⟩ (by simp [S₁])

/-- Witness for the amended C3 at a concrete optimal run of `S₁` under
`E₀`, where the passed vector is the three-entry shifted state. -/
theorem shifted_state_amended_wit :
    elementRaw E₀ S₁ s₁ =
      E₀.uNominal
        (shiftedState (rotApply (E₀.cosF s₁.theta) (E₀.sinF s₁.theta) (Vec2.mk 0 0))
          s₁.theta) ∧
    shiftedState (rotApply (E₀.cosF s₁.theta) (E₀.sinF s₁.theta) (Vec2.mk 0 0))
        s₁.theta =
      [-(E₀.cosF s₁.theta * (Vec2.mk 0 0).x - E₀.sinF s₁.theta * (Vec2.mk 0 0).y),
       -(E₀.sinF s₁.theta * (Vec2.mk 0 0).x + E₀.cosF s₁.theta * (Vec2.mk 0 0).y),
       s₁.theta] :=
  shifted_state_amended E₀ S₁ s₁ P₁ P₁ ⟨0, 0⟩ (by simp [S₁, E₀]) (by simp [S₁, E₀])

end NeuralClbf
